import Mathlib

/-!
Verification of the middleware dispatch core of the iron web framework
(src/middleware.rs), as a shallow embedding.

Modelling conventions:
* The opaque external types Request, Response and Error are type parameters
  Req, Res and Err.  The dispatcher never inspects them, matching the source.
* Rust values behind exclusive references (the request, and in the after
  phase the response) are threaded explicitly: an operation taking
  a mutable request and returning IronResult T becomes a function
  Req to Req times Except Err T.
* Trait objects become structures of functions.  The reserved Lean keyword
  forces the field name catchErr for the catch methods of the source.
* The helper functions run_befores and run_afters in the source recurse on
  every mode switch, and a stage whose before always fails while its own
  catch always succeeds makes them loop forever.  The embedding therefore
  takes a fuel argument, returning none when fuel runs out; the per-mode
  scanning loops of the source are the structural scan functions below, and
  each recursive self call of the source helper costs one unit of fuel.
-/

namespace Iron

universe u v w

variable {Req : Type u} {Res : Type v} {Err : Type w}

/-- Source trait Handler: call produces a response or an error; catch (the
catch method, field catchErr here) turns a prior error into a response plus
either resolution or a residual error. -/
structure Handler (Req : Type u) (Res : Type v) (Err : Type w) where
  call : Req → Req × Except Err Res
  catchErr : Req → Err → Req × Res × Except Err Unit

/-- Source trait BeforeMiddleware: a before operation and a catch operation
(field catchErr). -/
structure BeforeMiddleware (Req : Type u) (Err : Type w) where
  before : Req → Req × Except Err Unit
  catchErr : Req → Err → Req × Except Err Unit

/-- Source trait AfterMiddleware: an after operation and a catch operation
(field catchErr), both receiving the request and the response. -/
structure AfterMiddleware (Req : Type u) (Res : Type v) (Err : Type w) where
  after : Req → Res → Req × Res × Except Err Unit
  catchErr : Req → Res → Err → Req × Res × Except Err Unit

/-- Source: the default body of BeforeMiddleware::catch, which re-raises the
error unchanged and does not touch the request. -/
def beforeDefaultCatch : Req → Err → Req × Except Err Unit :=
  fun req err => (req, Except.error err)

/-- Source: the default body of AfterMiddleware::catch, which re-raises the
error unchanged and touches neither request nor response. -/
def afterDefaultCatch : Req → Res → Err → Req × Res × Except Err Unit :=
  fun req res err => (req, res, Except.error err)

/-- Source: the default body of Handler::catch, which produces the
internal-server-error response (the opaque construction
Response::status(status::InternalServerError) is the parameter ise) paired
with the unresolved error. -/
def handlerDefaultCatch (ise : Res) : Req → Err → Req × Res × Except Err Unit :=
  fun req err => (req, ise, Except.error err)

/-- Source struct Nop: call returns a fresh response (parameter newRes for
the opaque Response::new()), catch is the default internal-error behaviour. -/
def Nop (newRes ise : Res) : Handler Req Res Err :=
  { call := fun req => (req, Except.ok newRes)
    catchErr := handlerDefaultCatch ise }

/-- Source impl Handler for Box of Handler: under trait-object dispatch the
two methods forward to the boxed handler, so the box is transparent in the
embedding. -/
def boxHandler (h : Handler Req Res Err) : Handler Req Res Err :=
  { call := fun req => h.call req
    catchErr := fun req err => h.catchErr req err }

/-- Source impl Handler for Arc of Box of Handler: forwards to the contained
boxed handler. -/
def arcBoxHandler (h : Handler Req Res Err) : Handler Req Res Err :=
  { call := fun req => (boxHandler h).call req
    catchErr := fun req err => (boxHandler h).catchErr req err }

/-- Source trait AroundMiddleware, shallowly: with_handler hands the stage
the handler it is to wrap, and the stage is itself a Handler afterwards; the
composite of storing the inner handler and acting as a Handler is one
function from the wrapped handler to the resulting Handler. -/
structure AroundMiddleware (Req : Type u) (Res : Type v) (Err : Type w) where
  with_handler : Handler Req Res Err → Handler Req Res Err

/-- Source struct ChainBuilder: a list of before middleware, a list of after
middleware and one handler. -/
structure ChainBuilder (Req : Type u) (Res : Type v) (Err : Type w) where
  befores : List (BeforeMiddleware Req Err)
  afters : List (AfterMiddleware Req Res Err)
  handler : Handler Req Res Err

/-- Source ChainBuilder::new: empty stage lists around the given handler. -/
def ChainBuilder.new (handler : Handler Req Res Err) : ChainBuilder Req Res Err :=
  { befores := [], afters := [], handler := handler }

/-- Source Chain::link for ChainBuilder: push the before stage and the after
stage onto the respective lists. -/
def ChainBuilder.link (c : ChainBuilder Req Res Err)
    (ba : BeforeMiddleware Req Err × AfterMiddleware Req Res Err) :
    ChainBuilder Req Res Err :=
  { c with befores := c.befores ++ [ba.1], afters := c.afters ++ [ba.2] }

/-- Source Chain::link_before for ChainBuilder. -/
def ChainBuilder.link_before (c : ChainBuilder Req Res Err)
    (b : BeforeMiddleware Req Err) : ChainBuilder Req Res Err :=
  { c with befores := c.befores ++ [b] }

/-- Source Chain::link_after for ChainBuilder. -/
def ChainBuilder.link_after (c : ChainBuilder Req Res Err)
    (a : AfterMiddleware Req Res Err) : ChainBuilder Req Res Err :=
  { c with afters := c.afters ++ [a] }

/-- Source Chain::around for ChainBuilder: take the current handler out
(the transient Nop placeholder of the source is never observable), hand it
to the around stage via with_handler, and install the around stage as the
new handler. -/
def ChainBuilder.around (c : ChainBuilder Req Res Err)
    (a : AroundMiddleware Req Res Err) : ChainBuilder Req Res Err :=
  let old := c.handler
  { c with handler := a.with_handler old }

/-- Source helpers::run_befores, forward-mode loop body: run each stage's
before in order; on the first failure return the mutated request, the error
and the sub-slice of the list starting at the failing stage (the source's
befores.slice_from(i)); on success return the final request and no error. -/
def forwardScanB (req : Req) :
    List (BeforeMiddleware Req Err) →
    Req × Option (Err × List (BeforeMiddleware Req Err))
  | [] => (req, none)
  | b :: bs =>
    match b.before req with
    | (req', Except.ok _) => forwardScanB req' bs
    | (req', Except.error e) => (req', some (e, b :: bs))

/-- Source helpers::run_befores, catching-mode loop body: offer the error to
each stage's catch in order, replacing the error on failure; return the
request and none when some catch resolves the error, or the request and the
final accumulated error when the list is exhausted. -/
def catchScanB (req : Req) (e : Err) :
    List (BeforeMiddleware Req Err) → Req × Option Err
  | [] => (req, some e)
  | b :: bs =>
    match b.catchErr req e with
    | (req', Except.ok _) => (req', none)
    | (req', Except.error e') => catchScanB req' e' bs

/-- Source helpers::run_befores: with an error, scan catches over the given
slice, and on resolution recurse in forward mode over the same slice; with
no error, scan befores, and on failure recurse in catching mode over the
slice starting at the failing stage.  Each recursive self call of the source
costs one unit of fuel. -/
def run_befores (fuel : Nat) (req : Req)
    (befores : List (BeforeMiddleware Req Err)) (err : Option Err) :
    Option (Req × Except Err Unit) :=
  match fuel with
  | 0 => none
  | fuel + 1 =>
    match err with
    | some e =>
      match catchScanB req e befores with
      | (req', none) => run_befores fuel req' befores none
      | (req', some eFin) => some (req', Except.error eFin)
    | none =>
      match forwardScanB req befores with
      | (req', none) => some (req', Except.ok ())
      | (req', some (e, slice)) => run_befores fuel req' slice (some e)

/-- Source helpers::run_afters, forward-mode loop body: run each stage's
after in order, threading request and response; on the first failure return
the state, the error and the sub-slice starting at the failing stage. -/
def forwardScanA (req : Req) (res : Res) :
    List (AfterMiddleware Req Res Err) →
    Req × Res × Option (Err × List (AfterMiddleware Req Res Err))
  | [] => (req, res, none)
  | a :: rest =>
    match a.after req res with
    | (req', res', Except.ok _) => forwardScanA req' res' rest
    | (req', res', Except.error e) => (req', res', some (e, a :: rest))

/-- Source helpers::run_afters, catching-mode loop body: offer the error to
each stage's catch in order, replacing it on failure; none on resolution,
the final error on exhaustion. -/
def catchScanA (req : Req) (res : Res) (e : Err) :
    List (AfterMiddleware Req Res Err) → Req × Res × Option Err
  | [] => (req, res, some e)
  | a :: rest =>
    match a.catchErr req res e with
    | (req', res', Except.ok _) => (req', res', none)
    | (req', res', Except.error e') => catchScanA req' res' e' rest

/-- Source helpers::run_afters: with an error, scan catches over the given
slice, on resolution recursing in forward mode over the same slice (the
response is kept, the error dropped); with no error, scan afters, on failure
recursing in catching mode over the slice starting at the failing stage.  On
catching-mode exhaustion the response is dropped and the error returned. -/
def run_afters (fuel : Nat) (req : Req) (res : Res) (err : Option Err)
    (afters : List (AfterMiddleware Req Res Err)) :
    Option (Req × Except Err Res) :=
  match fuel with
  | 0 => none
  | fuel + 1 =>
    match err with
    | some e =>
      match catchScanA req res e afters with
      | (req', res', none) => run_afters fuel req' res' none afters
      | (req', _, some eFin) => some (req', Except.error eFin)
    | none =>
      match forwardScanA req res afters with
      | (req', res', none) => some (req', Except.ok res')
      | (req', res', some (e, slice)) => run_afters fuel req' res' (some e) slice

/-- Source helpers::run_handler_catch: invoke the handler's catch with the
error; package resolution as none and a residual error as some. -/
def run_handler_catch (req : Req) (err : Err) (handler : Handler Req Res Err) :
    Req × Res × Option Err :=
  match handler.catchErr req err with
  | (req', res, Except.ok _) => (req', res, none)
  | (req', res, Except.error e) => (req', res, some e)

/-- Source impl Handler for ChainBuilder, method call: run the befores with
no incoming error; on success call the handler, on a handler error run the
handler's catch; on a before-phase error run the handler's catch directly;
finally run the afters with the resulting response and residual error. -/
def ChainBuilder.call (fuel : Nat) (c : ChainBuilder Req Res Err) (req : Req) :
    Option (Req × Except Err Res) :=
  match run_befores fuel req c.befores none with
  | none => none
  | some (req₁, beforeResult) =>
    match beforeResult with
    | Except.ok _ =>
      match c.handler.call req₁ with
      | (req₂, Except.ok res) => run_afters fuel req₂ res none c.afters
      | (req₂, Except.error e) =>
        match run_handler_catch req₂ e c.handler with
        | (req₃, res, err) => run_afters fuel req₃ res err c.afters
    | Except.error e =>
      match run_handler_catch req₁ e c.handler with
      | (req₃, res, err) => run_afters fuel req₃ res err c.afters

/-- Source impl Handler for ChainBuilder, method catch: identical to call
except that the befores are entered in catching mode with the incoming
error, and that the final result is converted: after-phase success becomes
the response paired with resolution, failure becomes the internal-error
response (parameter ise) paired with the residual error. -/
def ChainBuilder.catchErr (ise : Res) (fuel : Nat) (c : ChainBuilder Req Res Err)
    (req : Req) (err : Err) : Option (Req × Res × Except Err Unit) :=
  match run_befores fuel req c.befores (some err) with
  | none => none
  | some (req₁, beforeResult) =>
    match
      (match beforeResult with
      | Except.ok _ =>
        match c.handler.call req₁ with
        | (req₂, Except.ok res) => run_afters fuel req₂ res none c.afters
        | (req₂, Except.error e) =>
          match run_handler_catch req₂ e c.handler with
          | (req₃, res, err) => run_afters fuel req₃ res err c.afters
      | Except.error e =>
        match run_handler_catch req₁ e c.handler with
        | (req₃, res, err) => run_afters fuel req₃ res err c.afters) with
    | none => none
    | some (req', Except.ok res) => some (req', res, Except.ok ())
    | some (req', Except.error e) => some (req', ise, Except.error e)

/-- Modelled from the spec: the dispatch core shared by the pipeline's call
and catch entry points, parameterised by the optional error with which the
before-phase is entered, used to state that catch re-enters at the
before-phase in catching mode and then proceeds exactly as call. -/
def specDispatch (fuel : Nat) (c : ChainBuilder Req Res Err) (req : Req)
    (err0 : Option Err) : Option (Req × Except Err Res) :=
  match run_befores fuel req c.befores err0 with
  | none => none
  | some (req₁, beforeResult) =>
    match beforeResult with
    | Except.ok _ =>
      match c.handler.call req₁ with
      | (req₂, Except.ok res) => run_afters fuel req₂ res none c.afters
      | (req₂, Except.error e) =>
        match run_handler_catch req₂ e c.handler with
        | (req₃, res, err) => run_afters fuel req₃ res err c.afters
    | Except.error e =>
      match run_handler_catch req₁ e c.handler with
      | (req₃, res, err) => run_afters fuel req₃ res err c.afters

/-!
Concrete stage instances used as inputs for counterexamples and witnesses.
The request type is a log of event codes (List Nat), the response type and
the error type are Nat.  Event codes: k for the before operation of stage k,
100 + k for its catch; 10 + k for after operations, 110 + k for their
catches; 1000-range codes for handler operations.
-/

/-- Test stage: before logs 0 and succeeds; catch logs 100 and re-raises. -/
def bOk : BeforeMiddleware (List Nat) Nat :=
  { before := fun log => (log ++ [0], Except.ok ())
    catchErr := fun log e => (log ++ [100], Except.error e) }

/-- Test stage: before logs 1 and fails with error 7 on its first run (no 1
in the log yet), succeeding on later runs; catch logs 101 and resolves. -/
def bFailOnce : BeforeMiddleware (List Nat) Nat :=
  { before := fun log =>
      if log.contains 1 then (log ++ [1], Except.ok ())
      else (log ++ [1], Except.error 7)
    catchErr := fun log _ => (log ++ [101], Except.ok ()) }

/-- Test stage: before logs 2 and always fails with error 9; catch logs 102
and re-raises. -/
def bFail : BeforeMiddleware (List Nat) Nat :=
  { before := fun log => (log ++ [2], Except.error 9)
    catchErr := fun log e => (log ++ [102], Except.error e) }

/-- Test stage: before logs 3 and succeeds; catch is the source's default. -/
def bDefault : BeforeMiddleware (List Nat) Nat :=
  { before := fun log => (log ++ [3], Except.ok ())
    catchErr := beforeDefaultCatch }

/-- Test stage: after logs 11 and succeeds; catch logs 111 and re-raises. -/
def aOk : AfterMiddleware (List Nat) Nat Nat :=
  { after := fun log res => (log ++ [11], res, Except.ok ())
    catchErr := fun log res e => (log ++ [111], res, Except.error e) }

/-- Test stage: after logs 10 and fails with error 5 on its first run (no 10
in the log yet), succeeding on later runs; catch logs 110 and resolves. -/
def aFailOnce : AfterMiddleware (List Nat) Nat Nat :=
  { after := fun log res =>
      if log.contains 10 then (log ++ [10], res, Except.ok ())
      else (log ++ [10], res, Except.error 5)
    catchErr := fun log res _ => (log ++ [110], res, Except.ok ()) }

/-- Test stage: after logs 12 and succeeds; catch logs 112 and replaces the
error e by e + 1. -/
def aReplace : AfterMiddleware (List Nat) Nat Nat :=
  { after := fun log res => (log ++ [12], res, Except.ok ())
    catchErr := fun log res e => (log ++ [112], res, Except.error (e + 1)) }

/-- Test handler: call logs 1000 and returns response 42; catch logs 1001
and returns response 500 with the error re-raised. -/
def hLog : Handler (List Nat) Nat Nat :=
  { call := fun log => (log ++ [1000], Except.ok 42)
    catchErr := fun log e => (log ++ [1001], 500, Except.error e) }

/-- Test handler: call logs 1002 and fails with error 3; catch logs 1003 and
returns response 500 with the error re-raised. -/
def hFail : Handler (List Nat) Nat Nat :=
  { call := fun log => (log ++ [1002], Except.error 3)
    catchErr := fun log e => (log ++ [1003], 500, Except.error e) }

/-- Modelled from the spec: the WrappingStage of the spec's test scenarios,
which logs a pre event, delegates to the wrapped handler, then logs a post
event; its catch delegates unchanged. -/
def wrapStage (pre post : Nat) : AroundMiddleware (List Nat) Nat Nat :=
  { with_handler := fun inner =>
      { call := fun log =>
          match inner.call (log ++ [pre]) with
          | (log', r) => (log' ++ [post], r)
        catchErr := fun log e => inner.catchErr log e } }

/-!
Helper lemmas about the scanning loops.
-/

/-- If the forward scan of a prefix succeeds, scanning the prefix followed
by a remainder continues with the remainder from the reached state. -/
theorem forwardScanB_append (pre rest : List (BeforeMiddleware Req Err))
    (req req₁ : Req) (h : forwardScanB req pre = (req₁, none)) :
    forwardScanB req (pre ++ rest) = forwardScanB req₁ rest := by
  induction pre generalizing req with
  | nil =>
    simp only [forwardScanB] at h
    cases h
    simp
  | cons b bs ih =>
    simp only [forwardScanB, List.cons_append] at h ⊢
    cases hb : b.before req with
    | mk req' r =>
      rw [hb] at h
      cases r with
      | ok u => exact ih req' h
      | error e => simp at h

/-- If the catch scan of a prefix exhausts with an accumulated error,
scanning the prefix followed by a remainder continues with the remainder
from the accumulated state and error. -/
theorem catchScanB_append (cpre rest : List (BeforeMiddleware Req Err))
    (req req₃ : Req) (e e₃ : Err) (h : catchScanB req e cpre = (req₃, some e₃)) :
    catchScanB req e (cpre ++ rest) = catchScanB req₃ e₃ rest := by
  induction cpre generalizing req e with
  | nil =>
    simp only [catchScanB] at h
    cases h
    simp
  | cons b bs ih =>
    simp only [catchScanB, List.cons_append] at h ⊢
    cases hb : b.catchErr req e with
    | mk req' r =>
      rw [hb] at h
      cases r with
      | ok u => simp at h
      | error e' => exact ih req' e' h

/-- Afters version of the forward append lemma. -/
theorem forwardScanA_append (pre rest : List (AfterMiddleware Req Res Err))
    (req req₁ : Req) (res res₁ : Res)
    (h : forwardScanA req res pre = (req₁, res₁, none)) :
    forwardScanA req res (pre ++ rest) = forwardScanA req₁ res₁ rest := by
  induction pre generalizing req res with
  | nil =>
    simp only [forwardScanA] at h
    cases h
    simp
  | cons a rest' ih =>
    simp only [forwardScanA, List.cons_append] at h ⊢
    cases ha : a.after req res with
    | mk req' p =>
      cases p with
      | mk res' r =>
        rw [ha] at h
        cases r with
        | ok u => exact ih req' res' h
        | error e => simp at h

/-- Afters version of the catch append lemma. -/
theorem catchScanA_append (cpre rest : List (AfterMiddleware Req Res Err))
    (req req₃ : Req) (res res₃ : Res) (e e₃ : Err)
    (h : catchScanA req res e cpre = (req₃, res₃, some e₃)) :
    catchScanA req res e (cpre ++ rest) = catchScanA req₃ res₃ e₃ rest := by
  induction cpre generalizing req res e with
  | nil =>
    simp only [catchScanA] at h
    cases h
    simp
  | cons a rest' ih =>
    simp only [catchScanA, List.cons_append] at h ⊢
    cases ha : a.catchErr req res e with
    | mk req' p =>
      cases p with
      | mk res' r =>
        rw [ha] at h
        cases r with
        | ok u => simp at h
        | error e' => exact ih req' res' e' h

/-- A catch scan over stages that all use the source's default catch leaves
the request untouched and exhausts with the error unchanged. -/
theorem catchScanB_default (L : List (BeforeMiddleware Req Err))
    (hd : ∀ s ∈ L, s.catchErr = beforeDefaultCatch) (req : Req) (e : Err) :
    catchScanB req e L = (req, some e) := by
  induction L generalizing req e with
  | nil => simp [catchScanB]
  | cons b bs ih =>
    have hb : b.catchErr = beforeDefaultCatch := hd b (List.mem_cons_self b bs)
    simp only [catchScanB, hb, beforeDefaultCatch]
    exact ih (fun s hs => hd s (List.mem_cons_of_mem b hs)) req e

/-!
Claim theorems.
-/

/-- Claim C1, counterexample: with stages [bOk, bFailOnce], stage 1's before
fails and stage 1's catch (a stage j with j at least the failing index i = 1)
resolves the error, yet the completed run's log shows stage 0's before ran
exactly once: the claim that every stage from 0 re-runs its before after a
resolved catch is false on the code, which resumes from the failing index. -/
theorem c1_before_restart_from_zero_cex :
    run_befores 5 [] [bOk, bFailOnce] none = some ([0, 1, 101, 1], Except.ok ()) ∧
    ([0, 1, 101, 1] : List Nat).count 1 = 2 ∧
    ([0, 1, 101, 1] : List Nat).count 101 = 1 ∧
    ([0, 1, 101, 1] : List Nat).count 0 = 1 :=
  ⟨rfl, by decide, by decide, by decide⟩

/-- Claim C1, amended: if before stage i fails (after the prefix of earlier
stages succeeded) and some stage of the catching slice resolves the error,
the before-phase resumes forward mode from index i, the start of the slice
handed to catching mode: the resumed pass is a fresh forward run over
exactly the stages from the failing one onward, and the stages before index
i are not re-run. -/
theorem c1_before_resumes_at_failing_index
    (f : Nat) (req req₁ req₂ req₃ req₄ : Req) (e e₃ : Err)
    (pre bs cpre ccs : List (BeforeMiddleware Req Err))
    (b c : BeforeMiddleware Req Err)
    (h1 : forwardScanB req pre = (req₁, none))
    (h2 : b.before req₁ = (req₂, Except.error e))
    (h3 : catchScanB req₂ e cpre = (req₃, some e₃))
    (h4 : c.catchErr req₃ e₃ = (req₄, Except.ok ()))
    (h5 : b :: bs = cpre ++ c :: ccs) :
    run_befores (f + 1 + 1) req (pre ++ b :: bs) none =
      run_befores f req₄ (b :: bs) none := by
  have hf : forwardScanB req (pre ++ b :: bs) = (req₂, some (e, b :: bs)) := by
    rw [forwardScanB_append pre (b :: bs) req req₁ h1]
    simp only [forwardScanB, h2]
  have hcatch : catchScanB req₂ e (b :: bs) = (req₄, none) := by
    rw [h5, catchScanB_append cpre (c :: ccs) req₂ req₃ e e₃ h3]
    simp only [catchScanB, h4]
  simp only [run_befores, hf, hcatch]

/-- Claim C1 witness: a concrete run where stage 1 of [bOk, bFailOnce] fails
and resolves its own error, resuming forward mode over the slice starting at
stage 1. -/
theorem c1_before_resumes_at_failing_index_witness :
    run_befores 5 [] [bOk, bFailOnce] none =
      run_befores 3 [0, 1, 101] [bFailOnce] none :=
  c1_before_resumes_at_failing_index 3 [] [0] [0, 1] [0, 1] [0, 1, 101] 7 7
    [bOk] [] [] [] bFailOnce bFailOnce rfl rfl rfl rfl rfl

/-- Claim C2, counterexample: the single after stage aFailOnce fails in its
after, then resolves the error in its own catch (so i = j = 0), and the
resumed forward pass runs its after again: the log records the after
operation twice, contradicting the claim that stages up to j are not re-run
and that forward mode resumes at index j + 1. -/
theorem c2_after_resume_at_j_plus_one_cex :
    run_afters 5 [] 0 none [aFailOnce] = some ([10, 110, 10], Except.ok 0) ∧
    ([10, 110, 10] : List Nat).count 10 = 2 ∧
    ([10, 110, 10] : List Nat).count 110 = 1 :=
  ⟨rfl, by decide, by decide⟩

/-- Claim C2, amended: when after stage i fails (after a successful prefix)
and some stage of the catching slice resolves the error, the after-phase
resumes forward mode from index i, the start of the slice handed to catching
mode (index 0 of the full list when the error entered the phase from the
handler): stages before i are not re-run, while stage i and all later stages
run their after in the resumed pass. -/
theorem c2_after_resumes_at_slice_start
    (f : Nat) (req req₁ req₂ req₃ req₄ : Req) (res res₁ res₂ res₃ res₄ : Res)
    (e e₃ : Err) (pre rest cpre ccs : List (AfterMiddleware Req Res Err))
    (a ac : AfterMiddleware Req Res Err)
    (h1 : forwardScanA req res pre = (req₁, res₁, none))
    (h2 : a.after req₁ res₁ = (req₂, res₂, Except.error e))
    (h3 : catchScanA req₂ res₂ e cpre = (req₃, res₃, some e₃))
    (h4 : ac.catchErr req₃ res₃ e₃ = (req₄, res₄, Except.ok ()))
    (h5 : a :: rest = cpre ++ ac :: ccs) :
    run_afters (f + 1 + 1) req res none (pre ++ a :: rest) =
      run_afters f req₄ res₄ none (a :: rest) := by
  have hf : forwardScanA req res (pre ++ a :: rest) =
      (req₂, res₂, some (e, a :: rest)) := by
    rw [forwardScanA_append pre (a :: rest) req req₁ res res₁ h1]
    simp only [forwardScanA, h2]
  have hcatch : catchScanA req₂ res₂ e (a :: rest) = (req₄, res₄, none) := by
    rw [h5, catchScanA_append cpre (ac :: ccs) req₂ req₃ res₂ res₃ e e₃ h3]
    simp only [catchScanA, h4]
  simp only [run_afters, hf, hcatch]

/-- Claim C2 witness: a concrete run over [aOk, aFailOnce] where stage 1
fails, resolves its own error, and the after-phase resumes forward mode over
the slice starting at stage 1. -/
theorem c2_after_resumes_at_slice_start_witness :
    run_afters 5 [] 0 none [aOk, aFailOnce] =
      run_afters 3 [11, 10, 110] 0 none [aFailOnce] :=
  c2_after_resumes_at_slice_start 3 [] [11] [11, 10] [11, 10] [11, 10, 110]
    0 0 0 0 0 5 5 [aOk] [] [] [] aFailOnce aFailOnce rfl rfl rfl rfl rfl

/-- Claim C3: if a before stage fails and no catch from the failing stage
onward resolves the error, the chain's call hands the final propagated error
to the handler's catch, and its result does not depend on the handler's
normal call operation at all. -/
theorem c3_unhandled_before_error_hits_handler_catch
    (f : Nat) (c : ChainBuilder Req Res Err) (req req₁ req₂ : Req)
    (e eFin : Err) (slice : List (BeforeMiddleware Req Err))
    (h1 : forwardScanB req c.befores = (req₁, some (e, slice)))
    (h2 : catchScanB req₁ e slice = (req₂, some eFin)) :
    (ChainBuilder.call (f + 1 + 1) c req =
      (match run_handler_catch req₂ eFin c.handler with
      | (req₃, res, err) => run_afters (f + 1 + 1) req₃ res err c.afters)) ∧
    ∀ g : Req → Req × Except Err Res,
      ChainBuilder.call (f + 1 + 1)
        { c with handler := { call := g, catchErr := c.handler.catchErr } } req =
      ChainBuilder.call (f + 1 + 1) c req := by
  have hrb : run_befores (f + 1 + 1) req c.befores none =
      some (req₂, Except.error eFin) := by
    simp only [run_befores, h1, h2]
  constructor
  · simp only [ChainBuilder.call, hrb]
  · intro g
    simp only [ChainBuilder.call, hrb, run_handler_catch]

/-- Claim C3 witness: with befores [bOk, bFail] (stage 1 always fails, every
catch re-raises), the chain's call feeds error 9 to the handler's catch and
returns its residual, and replacing the handler's call operation changes
nothing. -/
theorem c3_unhandled_before_error_hits_handler_catch_witness :
    ChainBuilder.call 2 (ChainBuilder.mk [bOk, bFail] [] hLog) [] =
      some ([0, 2, 102, 1001], Except.error 9) ∧
    ChainBuilder.call 2
      (ChainBuilder.mk [bOk, bFail] []
        { call := fun log => (log, Except.ok 0), catchErr := hLog.catchErr }) [] =
    ChainBuilder.call 2 (ChainBuilder.mk [bOk, bFail] [] hLog) [] := by
  have h := c3_unhandled_before_error_hits_handler_catch 0
    (ChainBuilder.mk [bOk, bFail] [] hLog) [] [0, 2] [0, 2, 102] 9 9 [bFail]
    rfl rfl
  exact ⟨h.1.trans rfl, h.2 (fun log => (log, Except.ok 0))⟩

/-- Claim C4: if the before phase succeeds, the handler's call fails, its
catch leaves a residual error, and no after stage's catch resolves (the
catch scan of the after list exhausts), then the top-level call fails with
the final error, reflecting every replacement made along the catch scan. -/
theorem c4_uncaught_after_error_fails_call
    (f : Nat) (c : ChainBuilder Req Res Err) (req req₁ req₂ req₃ req₄ : Req)
    (res res' : Res) (e₀ e₁ eFin : Err)
    (h1 : run_befores (f + 1) req c.befores none = some (req₁, Except.ok ()))
    (h2 : c.handler.call req₁ = (req₂, Except.error e₀))
    (h3 : c.handler.catchErr req₂ e₀ = (req₃, res, Except.error e₁))
    (h4 : catchScanA req₃ res e₁ c.afters = (req₄, res', some eFin)) :
    ChainBuilder.call (f + 1) c req = some (req₄, Except.error eFin) := by
  simp only [ChainBuilder.call, h1, h2, run_handler_catch, h3,
    run_afters, h4]

/-- Claim C4 witness: the handler hFail errors with 3, its catch re-raises,
and the single after stage aReplace replaces the error by 4 without
resolving it; the overall call fails with the replaced error 4. -/
theorem c4_uncaught_after_error_fails_call_witness :
    ChainBuilder.call 1 (ChainBuilder.mk [] [aReplace] hFail) [] =
      some ([1002, 1003, 112], Except.error 4) :=
  c4_uncaught_after_error_fails_call 0 (ChainBuilder.mk [] [aReplace] hFail)
    [] [] [1002] [1002, 1003] [1002, 1003, 112] 500 500 3 3 4 rfl rfl rfl rfl

/-- Claim C5: when before stage i fails (after the earlier stages
succeeded), catching mode starts at index i itself: stage i's own catch is
the first catch operation invoked, and with exactly the error it raised. -/
theorem c5_before_catching_starts_at_failing_stage
    (f : Nat) (req req₁ req₂ : Req) (e : Err)
    (pre bs : List (BeforeMiddleware Req Err)) (b : BeforeMiddleware Req Err)
    (h1 : forwardScanB req pre = (req₁, none))
    (h2 : b.before req₁ = (req₂, Except.error e)) :
    run_befores (f + 1 + 1) req (pre ++ b :: bs) none =
      (match b.catchErr req₂ e with
      | (req₃, Except.ok _) => run_befores f req₃ (b :: bs) none
      | (req₃, Except.error e') =>
        match catchScanB req₃ e' bs with
        | (req₄, none) => run_befores f req₄ (b :: bs) none
        | (req₄, some eFin) => some (req₄, Except.error eFin)) := by
  have hf : forwardScanB req (pre ++ b :: bs) = (req₂, some (e, b :: bs)) := by
    rw [forwardScanB_append pre (b :: bs) req req₁ h1]
    simp only [forwardScanB, h2]
  simp only [run_befores, hf, catchScanB]
  cases hb : b.catchErr req₂ e with
  | mk req₃ r =>
    cases r with
    | ok u => rfl
    | error e' =>
      cases hc : catchScanB req₃ e' bs with
      | mk req₄ o => cases o <;> rfl

/-- Claim C5 witness: with [bOk, bFail], stage 1's failure with error 9 is
first offered to stage 1's own catch, which re-raises, exhausting the list. -/
theorem c5_before_catching_starts_at_failing_stage_witness :
    run_befores 2 [] [bOk, bFail] none = some ([0, 2, 102], Except.error 9) :=
  (c5_before_catching_starts_at_failing_stage 0 [] [0] [0, 2] 9 [bOk] []
    bFail rfl rfl).trans rfl

/-- Claim C6: the chain's catch runs the before phase in catching mode with
the supplied error and then the handle and after phases exactly as the
chain's call does (the shared core specDispatch, which call equals at entry
error none): after-phase success becomes the response paired with Ok, and a
terminal failure becomes the internal-error response paired with the
residual error. -/
theorem c6_chain_catch_reenters_pipeline
    (ise : Res) (fuel : Nat) (c : ChainBuilder Req Res Err) (req : Req)
    (err : Err) :
    (ChainBuilder.catchErr ise fuel c req err =
      (match specDispatch fuel c req (some err) with
      | none => none
      | some (req', Except.ok res) => some (req', res, Except.ok ())
      | some (req', Except.error e) => some (req', ise, Except.error e))) ∧
    ChainBuilder.call fuel c req = specDispatch fuel c req none := by
  constructor
  · simp only [ChainBuilder.catchErr, specDispatch]
    cases run_befores fuel req c.befores (some err) with
    | none => rfl
    | some p =>
      obtain ⟨req₁, br⟩ := p
      rfl
  · rfl

/-- Claim C7: around hands the handler installed at that moment to the
wrapping stage's with_handler and installs the result as the new handler,
leaving the stage lists untouched; a second around therefore wraps the first
wrapper, and dispatch order on a concrete chain shows the last-added wrapper
outermost: its pre event first, then the inner wrapper's, then the base
handler, then the post events inside-out. -/
theorem c7_around_wraps_current_handler :
    (∀ (c : ChainBuilder Req Res Err) (a : AroundMiddleware Req Res Err),
      (c.around a).handler = a.with_handler c.handler ∧
      (c.around a).befores = c.befores ∧ (c.around a).afters = c.afters) ∧
    (∀ (c : ChainBuilder Req Res Err) (a₁ a₂ : AroundMiddleware Req Res Err),
      ((c.around a₁).around a₂).handler =
        a₂.with_handler (a₁.with_handler c.handler)) ∧
    ChainBuilder.call 1
      (((ChainBuilder.new hLog).around (wrapStage 1 2)).around (wrapStage 3 4))
      [] = some ([3, 1, 1000, 2, 4], Except.ok 42) :=
  ⟨fun _ _ => ⟨rfl, rfl, rfl⟩, fun _ _ _ => rfl, rfl⟩

/-- Claim C8: the default catch of BeforeMiddleware and of AfterMiddleware
returns the passed-in error unchanged, and the default Handler catch returns
the internal-error response paired with the unresolved error; consequently a
before list whose stages all use the default catch propagates an incoming
error through catching mode unchanged and exhausts with it. -/
theorem c8_default_catches_reraise :
    (∀ (req : Req) (e : Err), beforeDefaultCatch req e = (req, Except.error e)) ∧
    (∀ (req : Req) (res : Res) (e : Err),
      afterDefaultCatch req res e = (req, res, Except.error e)) ∧
    (∀ (ise : Res) (req : Req) (e : Err),
      handlerDefaultCatch ise req e = (req, ise, Except.error e)) ∧
    ∀ (L : List (BeforeMiddleware Req Err)),
      (∀ s ∈ L, s.catchErr = beforeDefaultCatch) →
      ∀ (f : Nat) (req : Req) (e : Err),
        run_befores (f + 1) req L (some e) = some (req, Except.error e) := by
  refine ⟨fun _ _ => rfl, fun _ _ _ => rfl, fun _ _ _ => rfl, ?_⟩
  intro L hL f req e
  simp only [run_befores, catchScanB_default L hL req e]

/-- Claim C8 witness: a single default-catch stage propagates error 5
through catching mode untouched. -/
theorem c8_default_catches_reraise_witness :
    run_befores 1 ([] : List Nat) [bDefault] (some 5) =
      some ([], Except.error 5) := by
  have h := @c8_default_catches_reraise (List Nat) Nat Nat
  refine h.2.2.2 [bDefault] ?_ 0 [] 5
  intro s hs
  rw [List.mem_singleton] at hs
  subst hs
  rfl

/-- Claim C9: the Handler implementations for the boxed handler and for the
reference-counted boxed handler delegate to the wrapped handler (in the
embedding the box is transparent, matching trait-object dispatch), and a
chain whose handler is boxed behaves identically to the chain holding the
handler directly. -/
theorem c9_box_arc_handlers_delegate :
    (∀ (h : Handler Req Res Err) (req : Req) (e : Err),
      (boxHandler h).call req = h.call req ∧
      (boxHandler h).catchErr req e = h.catchErr req e ∧
      (arcBoxHandler h).call req = h.call req ∧
      (arcBoxHandler h).catchErr req e = h.catchErr req e) ∧
    ∀ (h : Handler Req Res Err) (fuel : Nat)
      (bs : List (BeforeMiddleware Req Err))
      (la : List (AfterMiddleware Req Res Err)) (req : Req),
      ChainBuilder.call fuel (ChainBuilder.mk bs la (boxHandler h)) req =
        ChainBuilder.call fuel (ChainBuilder.mk bs la h) req :=
  ⟨fun _ _ _ => ⟨rfl, rfl, rfl, rfl⟩, fun _ _ _ _ _ => rfl⟩

/-- Claim C10: a freshly built chain has empty stage lists, and its call is
exactly the handle phase: the handler's result on success, and on a handler
error the response of the handler's catch, succeeding when the catch
resolves and failing with the residual otherwise. -/
theorem c10_new_chain_call_is_handle_phase
    (h : Handler Req Res Err) (f : Nat) (req : Req) :
    (ChainBuilder.new h).befores = [] ∧ (ChainBuilder.new h).afters = [] ∧
    ChainBuilder.call (f + 1) (ChainBuilder.new h) req =
      (match h.call req with
      | (req₁, Except.ok r) => some (req₁, Except.ok r)
      | (req₁, Except.error e) =>
        match h.catchErr req₁ e with
        | (req₂, r, Except.ok _) => some (req₂, Except.ok r)
        | (req₂, _, Except.error e') => some (req₂, Except.error e')) := by
  refine ⟨rfl, rfl, ?_⟩
  have hrb : run_befores (f + 1) req
      ([] : List (BeforeMiddleware Req Err)) none =
      some (req, Except.ok ()) := by
    simp only [run_befores, forwardScanB]
  simp only [ChainBuilder.call, ChainBuilder.new, hrb]
  cases hc : h.call req with
  | mk req₁ r =>
    cases r with
    | ok res => simp only [run_afters, forwardScanA]
    | error e =>
      simp only [run_handler_catch]
      cases hh : h.catchErr req₁ e with
      | mk req₂ p =>
        obtain ⟨res, r₂⟩ := p
        cases r₂ with
        | ok u => simp only [run_afters, forwardScanA]
        | error e' => simp only [run_afters, catchScanA]

end Iron
